import Mathlib

/-!
Shallow embedding of the extraction engine in `excel2json.py`:
template classification, metadata extraction, image extraction and
cell binding, question-table parsing, schema mapping, validation and
the per-file processing pipeline.

Cell text is modelled as `List Char` so that the Python string
operations used by the source (`split`, `strip`, `isdigit`, `join`,
substring membership, `str(int)`) are fully inductive definitions.
-/

/-- Cell text: a Python string modelled as its list of characters. -/
abbrev Str := List Char

/-- Literal helper: the character list of a Lean string literal. -/
def chars (s : String) : Str := s.data

/-- Python `str.split(sep)` for a one-character separator.
`split` keeps empty fields and always returns at least one element. -/
def pySplit (sep : Char) : Str → List Str
  | [] => [[]]
  | c :: cs =>
    if c = sep then [] :: pySplit sep cs
    else
      match pySplit sep cs with
      | [] => [[c]]
      | h :: t => (c :: h) :: t

/-- Python `sep.join(parts)`. -/
def pyJoin (sep : Str) : List Str → Str
  | [] => []
  | [x] => x
  | x :: y :: t => x ++ sep ++ pyJoin sep (y :: t)

/-- Whitespace test used by Python `str.strip()`. -/
def pyIsWS (c : Char) : Bool := c.isWhitespace

/-- Python `str.strip()`: drop whitespace from both ends. -/
def pyStrip (s : Str) : Str :=
  ((s.dropWhile pyIsWS).reverse.dropWhile pyIsWS).reverse

/-- Python `str.isdigit()` restricted to ASCII digits: true iff the
string is non-empty and every character is a decimal digit. -/
def pyIsdigit (s : Str) : Bool := !s.isEmpty && s.all Char.isDigit

/-- Python substring membership `needle in hay`. -/
def pyContains (needle : Str) : Str → Bool
  | [] => needle.isEmpty
  | c :: cs => needle.isPrefixOf (c :: cs) || pyContains needle cs

/-- Decimal digit character for a value below ten. -/
def digitChar (n : Nat) : Char := Char.ofNat (48 + n)

/-- Fuel-driven decimal rendering of a natural number
(most significant digit first). -/
def natDigitsF : Nat → Nat → Str
  | 0, _ => []
  | f + 1, n =>
    if n < 10 then [digitChar n]
    else natDigitsF f (n / 10) ++ [digitChar (n % 10)]

/-- Decimal rendering of a natural number, as Python `str(n)`. -/
def natToStr (n : Nat) : Str := natDigitsF (n + 1) n

/-- Python `str(i)` for an `int` value. -/
def intToStr (i : Int) : Str :=
  if i < 0 then '-' :: natToStr (-i).toNat else natToStr i.toNat

/-- Numeric value of a digit string (used after a digit check). -/
def digitsToNat (s : Str) : Nat :=
  s.foldl (fun a c => a * 10 + (c.toNat - 48)) 0

/-! ## Data model: cells, sheets, workbooks, templates -/

/-- A spreadsheet cell value as seen through openpyxl with
`data_only=True`: empty, a string, an integer, or a date value.
A date carries both its `str()` rendering and its `isoformat()`
rendering, the two projections the source reads from it. -/
inductive CellValue where
  | none
  | str (s : Str)
  | int (i : Int)
  | date (s : Str) (iso : Str)
deriving DecidableEq

/-- An embedded drawing (`sheet._images` element): whether it exposes
anchor data (`anchor._from`), its zero-based anchor column and row,
and whether its raw bytes decode to a raster image. -/
structure Drawing where
  hasAnchor : Bool
  anchorCol : Nat
  anchorRow : Nat
  decodeOk : Bool
deriving DecidableEq

/-- One worksheet: name, cell grid (1-based row and column, as
`sheet.cell(row=·, column=·).value`), bounds, and embedded drawings. -/
structure Sheet where
  name : Str
  cells : Int → Int → CellValue
  maxRow : Nat
  maxCol : Nat
  images : List Drawing

/-- A loaded workbook: the first sheet plus the remaining sheets. -/
structure Workbook where
  first : Sheet
  rest : List Sheet

/-- All sheets of the workbook in order. -/
def Workbook.sheets (wb : Workbook) : List Sheet := wb.first :: wb.rest

/-- The three recognized template variants. -/
inductive Template where
  | CEA
  | EQ
  | starteam
deriving DecidableEq

/-- Python truthiness of a cell value (`if cell.value:`):
`None`, the empty string and integer zero are falsy. -/
def truthy : CellValue → Bool
  | .none => false
  | .str s => !s.isEmpty
  | .int i => decide (i ≠ 0)
  | .date _ _ => true

/-- Python `str(value)` of a cell value. -/
def cellStr : CellValue → Str
  | .none => chars "None"
  | .str s => s
  | .int i => intToStr i
  | .date s _ => s

/-- `str(cell.value) if cell.value is not None else ""`. -/
def cellStrOrEmpty : CellValue → Str
  | .none => []
  | v => cellStr v

/-- Python `range(a, b)` over integers. -/
def intRange (a b : Int) : List Int :=
  (List.range (b - a).toNat).map (fun i => a + Int.ofNat i)

/-! ## Template classifier (`identify_template_type`) -/

/-- The sample string contributed by one row: the space-join of the
`str()` of the truthy cells in columns `range(1, min(15, max_col+1))`
(the inner comprehension re-filters empty strings before joining). -/
def rowSample (sheet : Sheet) (r : Int) : Str :=
  pyJoin [' ']
    (((intRange 1 (min 15 ((sheet.maxCol : Int) + 1))).filterMap
        (fun c =>
          let v := sheet.cells r c
          if truthy v then some (cellStr v) else Option.none)).filter
      (fun x => !x.isEmpty))

/-- The classifier's sample text: the space-join over rows
`range(1, min(20, max_row+1))` of each row's sample string. -/
def sampleText (sheet : Sheet) : Str :=
  pyJoin [' ']
    ((intRange 1 (min 20 ((sheet.maxRow : Int) + 1))).map (rowSample sheet))

/-- `identify_template_type`: keyword checks on the sampled text of
the first sheet, then structural fallbacks on sheet name and column
count; `none` when nothing matches.  The first source branch returns
only when the sheet is also named `CEA`; otherwise it falls through
to the later checks, which the nested conditional mirrors. -/
def identify_template_type (wb : Workbook) : Option Template :=
  let sheet := wb.first
  let sample := sampleText sheet
  if pyContains (chars "CEA") sample &&
      pyContains (chars "Customer Engineering Approval") sample &&
      decide (sheet.name = chars "CEA") then
    some .CEA
  else if pyContains (chars "Engineering Questionnaire") sample ||
      pyContains (chars "EQ") sample then
    if pyContains (chars "STG Proposal") sample &&
        pyContains (chars "Customer Decision") sample then
      some .starteam
    else
      some .EQ
  else if decide (sheet.name = chars "CEA") && decide (sheet.maxCol ≤ 6) then
    some .CEA
  else if decide (sheet.name = chars "EQ Template") then
    if decide (10 ≤ sheet.maxCol) then some .starteam else some .EQ
  else
    Option.none

/-! ## Metadata extractor (`extract_metadata`) -/

/-- Multi-line part-number cell splitting:
`[pn.strip() for pn in value.split('\n') if pn.strip()]`. -/
def splitPN (s : Str) : List Str :=
  (pySplit '\n' s).filterMap
    (fun pn => if pyStrip pn ≠ [] then some (pyStrip pn) else Option.none)

/-- Gregorian leap-year rule used by `datetime`. -/
def isLeap (y : Nat) : Bool :=
  y % 4 = 0 && (y % 100 ≠ 0 || y % 400 = 0)

/-- Days in a month, as validated by `datetime.strptime`. -/
def daysInMonth (m y : Nat) : Nat :=
  if m = 2 then (if isLeap y then 29 else 28)
  else if m = 4 ∨ m = 6 ∨ m = 9 ∨ m = 11 then 30
  else 31

/-- `datetime.strptime(s, "%d.%m.%Y")`: three dot-separated all-digit
fields (day and month at most two digits, year at most four), with the
resulting day, month and year in `datetime`'s valid ranges.  Returns
`(day, month, year)` on success. -/
def parseDDMMYYYY (s : Str) : Option (Nat × Nat × Nat) :=
  match pySplit '.' s with
  | [ds, ms, ys] =>
    if pyIsdigit ds && pyIsdigit ms && pyIsdigit ys &&
        decide (ds.length ≤ 2) && decide (ms.length ≤ 2) &&
        decide (ys.length ≤ 4) then
      let d := digitsToNat ds
      let m := digitsToNat ms
      let y := digitsToNat ys
      if decide (1 ≤ m) && decide (m ≤ 12) && decide (1 ≤ d) &&
          decide (d ≤ daysInMonth m y) && decide (1 ≤ y) then
        some (d, m, y)
      else Option.none
    else Option.none
  | _ => Option.none

/-- Zero-padded two-digit rendering. -/
def pad2 (n : Nat) : Str := if n < 10 then '0' :: natToStr n else natToStr n

/-- Zero-padded four-digit rendering. -/
def pad4 (n : Nat) : Str :=
  if n < 10 then chars "000" ++ natToStr n
  else if n < 100 then chars "00" ++ natToStr n
  else if n < 1000 then '0' :: natToStr n
  else natToStr n

/-- `datetime(y, m, d).isoformat()` for a midnight timestamp. -/
def isoOfDMY (d m y : Nat) : Str :=
  pad4 y ++ ['-'] ++ pad2 m ++ ['-'] ++ pad2 d ++ chars "T00:00:00"

/-- The starteam signature-cell payload handler: split the cell text
on newlines; with at least two lines, try to parse the stripped first
line as `DD.MM.YYYY` — on success the date is set and the remaining
lines re-joined and stripped become the signature text, on failure
the whole original text is kept as the signature and no date is set;
a single-line cell likewise keeps the whole text.  Returns
(signature date, signature list). -/
def parse_signature_cell (text : Str) : Option Str × List Str :=
  match pySplit '\n' text with
  | l0 :: l1 :: rest =>
    (match parseDDMMYYYY (pyStrip l0) with
     | some (d, m, y) =>
       (some (isoOfDMY d m y), [pyStrip (pyJoin ['\n'] (l1 :: rest))])
     | Option.none => (Option.none, [text]))
  | _ => (Option.none, [text])

/-- The metadata record accumulated by `extract_metadata`. -/
structure Metadata where
  customerName : Str
  engineerName : Option Str
  customerPN : List Str
  factoryPN : List Str
  stgPN : List Str
  baseMaterial : Option Str
  solderMask : Option Str
  viaPluggingType : Option Str
  panelSize : Option Str
  stgSignatureDate : Option Str
  stgSignatures : List Str
  customerSignatureDate : Option Str
  customerSignatures : List Str
  createdAt : Option Str
deriving DecidableEq

/-- The initial metadata dictionary. -/
def initialMetadata : Metadata :=
  { customerName := []
  , engineerName := Option.none
  , customerPN := []
  , factoryPN := []
  , stgPN := []
  , baseMaterial := Option.none
  , solderMask := Option.none
  , viaPluggingType := Option.none
  , panelSize := Option.none
  , stgSignatureDate := Option.none
  , stgSignatures := []
  , customerSignatureDate := Option.none
  , customerSignatures := []
  , createdAt := Option.none }

/-- One iteration of the CEA signature scan (rows 15 to
`min(25, max_row+1)` exclusive): a column-1 cell containing `Date`
promotes a date value one row below into the customer signature date,
and a column-4 cell containing `Signature` promotes the text one row
below into a single-element signature list. -/
def ceaScanStep (sheet : Sheet) (m : Metadata) (r : Int) : Metadata :=
  let m :=
    if truthy (sheet.cells r 1) &&
        pyContains (chars "Date") (cellStr (sheet.cells r 1)) then
      if truthy (sheet.cells (r + 1) 1) then
        match sheet.cells (r + 1) 1 with
        | .date _ iso => { m with customerSignatureDate := some iso }
        | _ => m
      else m
    else m
  if truthy (sheet.cells r 4) &&
      pyContains (chars "Signature") (cellStr (sheet.cells r 4)) then
    if truthy (sheet.cells (r + 1) 4) then
      { m with customerSignatures := [cellStr (sheet.cells (r + 1) 4)] }
    else m
  else m

/-- One iteration of the EQ signature scan (rows
`range(max_row-10, max_row)`): a column-1 cell containing `Date` or
`Signature` promotes a date one row below in column 1 and a signature
one row below in column 4. -/
def eqScanStep (sheet : Sheet) (m : Metadata) (r : Int) : Metadata :=
  if truthy (sheet.cells r 1) &&
      (pyContains (chars "Date") (cellStr (sheet.cells r 1)) ||
       pyContains (chars "Signature") (cellStr (sheet.cells r 1))) then
    let m :=
      if truthy (sheet.cells (r + 1) 1) then
        match sheet.cells (r + 1) 1 with
        | .date _ iso => { m with customerSignatureDate := some iso }
        | _ => m
      else m
    if truthy (sheet.cells (r + 1) 4) then
      { m with customerSignatures := [cellStr (sheet.cells (r + 1) 4)] }
    else m
  else m

/-- One iteration of the starteam signature scan (rows
`range(max_row-10, max_row)`): a column-4 cell containing `Signature`
feeds the cell one row below in column 4 through the signature-cell
parser for the producing party and the cell one row below in column 5
for the customer. -/
def starteamScanStep (sheet : Sheet) (m : Metadata) (r : Int) : Metadata :=
  if truthy (sheet.cells r 4) &&
      pyContains (chars "Signature") (cellStr (sheet.cells r 4)) then
    let m :=
      if truthy (sheet.cells (r + 1) 4) then
        let p := parse_signature_cell (cellStr (sheet.cells (r + 1) 4))
        match p.1 with
        | some iso => { m with stgSignatureDate := some iso, stgSignatures := p.2 }
        | Option.none => { m with stgSignatures := p.2 }
      else m
    if truthy (sheet.cells (r + 1) 5) then
      let p := parse_signature_cell (cellStr (sheet.cells (r + 1) 5))
      match p.1 with
      | some iso => { m with customerSignatureDate := some iso, customerSignatures := p.2 }
      | Option.none => { m with customerSignatures := p.2 }
    else m
  else m

/-- `extract_metadata`: the template-independent header reads followed
by the template-specific signature scan. -/
def extract_metadata (wb : Workbook) (t : Template) : Metadata :=
  let sheet := wb.first
  let m := initialMetadata
  let m :=
    if truthy (sheet.cells 1 3) then
      { m with customerName := cellStr (sheet.cells 1 3) } else m
  let m :=
    if truthy (sheet.cells 1 5) then
      { m with engineerName := some (cellStr (sheet.cells 1 5)) } else m
  let m :=
    if truthy (sheet.cells 2 3) then
      { m with customerPN := splitPN (cellStr (sheet.cells 2 3)) } else m
  let m :=
    if truthy (sheet.cells 2 5) then
      { m with factoryPN := splitPN (cellStr (sheet.cells 2 5)) } else m
  let m :=
    if truthy (sheet.cells 3 3) then
      { m with stgPN := splitPN (cellStr (sheet.cells 3 3)) } else m
  let m :=
    if truthy (sheet.cells 3 5) then
      match sheet.cells 3 5 with
      | .date _ iso => { m with createdAt := some iso }
      | _ => m
    else m
  let m :=
    if truthy (sheet.cells 7 3) then
      { m with baseMaterial := some (cellStr (sheet.cells 7 3)) } else m
  let m :=
    if truthy (sheet.cells 7 5) then
      { m with solderMask := some (cellStr (sheet.cells 7 5)) } else m
  match t with
  | .CEA =>
    (intRange 15 (min 25 ((sheet.maxRow : Int) + 1))).foldl (ceaScanStep sheet) m
  | .EQ =>
    (intRange ((sheet.maxRow : Int) - 10) (sheet.maxRow : Int)).foldl
      (eqScanStep sheet) m
  | .starteam =>
    let m :=
      if truthy (sheet.cells 8 3) then
        { m with viaPluggingType := some (cellStr (sheet.cells 8 3)) } else m
    let m :=
      if truthy (sheet.cells 8 5) then
        { m with panelSize := some (cellStr (sheet.cells 8 5)) } else m
    (intRange ((sheet.maxRow : Int) - 10) (sheet.maxRow : Int)).foldl
      (starteamScanStep sheet) m

/-! ## Image extractor (`extract_images`) -/

/-- The mapping from cell coordinate to the ordered image file names
anchored there, as an insertion-ordered dictionary. -/
abbrev ImgMap := List (Str × List Str)

/-- Anchor coordinate of a drawing: letter of the zero-based anchor
column (`chr(ord('A') + col)`) followed by the one-based row. -/
def anchorCoord (d : Drawing) : Str :=
  Char.ofNat (65 + d.anchorCol) :: natToStr (d.anchorRow + 1)

/-- Saved file name for the `k`-th counter value: `image_<k>.png`. -/
def imageFileName (k : Nat) : Str :=
  chars "image_" ++ natToStr k ++ chars ".png"

/-- Dictionary update `cell_to_images[coord].append(name)`, creating
the key at the end when absent (Python dict insertion order). -/
def insertImage : ImgMap → Str → Str → ImgMap
  | [], k, v => [(k, [v])]
  | (k0, vs) :: rest, k, v =>
    if k0 = k then (k0, vs ++ [v]) :: rest
    else (k0, vs) :: insertImage rest k v

/-- One drawing's effect on the (mapping, counter) state: drawings
without anchor data are skipped entirely; a drawing that decodes is
saved under `image_<counter>.png` and recorded at its anchor
coordinate; a decode failure is skipped but still advances the
counter. -/
def extractImagesStep (st : ImgMap × Nat) (d : Drawing) : ImgMap × Nat :=
  if d.hasAnchor then
    if d.decodeOk then
      (insertImage st.1 (anchorCoord d) (imageFileName st.2), st.2 + 1)
    else (st.1, st.2 + 1)
  else st

/-- All drawings of the workbook in discovery order (sheet order,
then each sheet's drawing order). -/
def allDrawings (wb : Workbook) : List Drawing :=
  (wb.sheets.map Sheet.images).flatten

/-- `extract_images`: fold the per-drawing step over every sheet's
drawings, with the counter starting at 1 and shared across sheets. -/
def extract_images (wb : Workbook) : ImgMap :=
  ((allDrawings wb).foldl extractImagesStep ([], 1)).1

/-- Python `dict.get(coord, [])` on the image mapping. -/
def dictGet (m : ImgMap) (k : Str) : List Str :=
  match m.find? (fun p => decide (p.1 = k)) with
  | some p => p.2
  | Option.none => []

/-- Every file name stored anywhere in the mapping. -/
def mapNames (m : ImgMap) : List Str := (m.map Prod.snd).flatten

/-- The counter values under which a drawing list's images are saved,
starting from counter value `c` (specification-side recursion shadowing
`extractImagesStep`). -/
def usedNums (c : Nat) : List Drawing → List Nat
  | [] => []
  | d :: ds =>
    if d.hasAnchor then
      if d.decodeOk then c :: usedNums (c + 1) ds
      else usedNums (c + 1) ds
    else usedNums c ds

/-! ## Question table parser (`extract_questions`) -/

/-- A question record as built by `extract_questions`.  Image lists
hold the bound file names; `create_image_info` wraps each name with a
fresh identifier, an extraction timestamp and the `images/` relative
path, which are not modelled. -/
structure Question where
  no : Str
  description : Option Str
  suggestion : Option Str
  customerResponse : Option Str
  descriptionImages : List Str
  suggestionImages : List Str
  customerResponseImages : List Str
  createdAt : Option Str
deriving DecidableEq

/-- First data row: row 10 for starteam, row 9 otherwise (the row
after it is the header and the scan starts one past it). -/
def startRow : Template → Int
  | .starteam => 10
  | _ => 9

/-- Number column per template. -/
def noCol : Template → Int
  | _ => 1

/-- Description column per template. -/
def descCol : Template → Int
  | _ => 2

/-- Suggestion column per template. -/
def suggCol : Template → Int
  | _ => 3

/-- Response column per template: starteam's Customer Decision sits
in column 5, the others use column 4. -/
def respCol : Template → Int
  | .starteam => 5
  | _ => 4

/-- Question-row test on the number-column cell:
`no_value is not None and (isinstance(no_value, int) or
(isinstance(no_value, str) and no_value.isdigit()))`. -/
def isQuestionCell : CellValue → Bool
  | .int _ => true
  | .str s => pyIsdigit s
  | _ => false

/-- Cell coordinate string used by `get_cell_value_with_images`:
`chr(ord('A') + col - 1)` for a one-based column, then the row. -/
def cellCoordStr (col row : Int) : Str :=
  Char.ofNat (64 + col).toNat :: intToStr row

/-- `get_cell_value_with_images`: the cell text (empty for `None`)
together with exactly the images whose anchor coordinate is this
cell's own coordinate. -/
def get_cell_value_with_images (sheet : Sheet) (row col : Int)
    (m : ImgMap) : Str × List Str :=
  (cellStrOrEmpty (sheet.cells row col), dictGet m (cellCoordStr col row))

/-- Optional free-text field: kept (stripped) only when the raw text
and its stripped form are both non-empty. -/
def optText (s : Str) : Option Str :=
  if !s.isEmpty && !(pyStrip s).isEmpty then some (pyStrip s) else Option.none

/-- The question `createdAt` source: the top date cell at row 3
column 5 when it carries an `isoformat` value. -/
def questionCreatedAt (sheet : Sheet) : Option Str :=
  if truthy (sheet.cells 3 5) then
    match sheet.cells 3 5 with
    | .date _ iso => some iso
    | _ => Option.none
  else Option.none

/-- Build the question record for one qualifying row. -/
def mkQuestion (sheet : Sheet) (t : Template) (m : ImgMap)
    (createdAt : Option Str) (r : Int) : Question :=
  let desc := get_cell_value_with_images sheet r (descCol t) m
  let sugg := get_cell_value_with_images sheet r (suggCol t) m
  let resp := get_cell_value_with_images sheet r (respCol t) m
  { no := cellStr (sheet.cells r (noCol t))
  , description := optText desc.1
  , suggestion := optText sugg.1
  , customerResponse := optText resp.1
  , descriptionImages := desc.2
  , suggestionImages := sugg.2
  , customerResponseImages := resp.2
  , createdAt := createdAt }

/-- `extract_questions`: scan rows `start_row + 1` to `max_row` of the
first sheet, producing one record per qualifying row; other rows are
skipped without stopping the scan. -/
def extract_questions (wb : Workbook) (t : Template) (m : ImgMap) :
    List Question :=
  let sheet := wb.first
  (intRange (startRow t + 1) ((sheet.maxRow : Int) + 1)).filterMap
    (fun r =>
      if isQuestionCell (sheet.cells r (noCol t)) then
        some (mkQuestion sheet t m (questionCreatedAt sheet) r)
      else Option.none)

/-- Total occurrence count of one image file name across every image
list of every question. -/
def imgCount (f : Str) (qs : List Question) : Nat :=
  (qs.map (fun q =>
    q.descriptionImages.count f + q.suggestionImages.count f +
      q.customerResponseImages.count f)).sum

/-! ## Schema mapper, validator, outlier handler, pipeline -/

/-- A question in the output schema (`map_to_schema`).  The fresh
per-question identifier is not modelled. -/
structure SchemaQuestion where
  createdAt : Str
  no : Str
  description : Option Str
  suggestion : Option Str
  customerResponse : Option Str
  descriptionImages : List Str
  suggestionImages : List Str
  customerResponseImages : List Str
deriving DecidableEq

/-- The canonical output document (`map_to_schema`).  The generated
identifiers and the synthesized original-file reference's identifier
and storage key are not modelled; `fileName` doubles as the original
file's name and upload locator. -/
structure Document where
  createdAt : Str
  customerName : Str
  engineerName : Option Str
  customerPN : List Str
  factoryPN : List Str
  stgPN : List Str
  baseMaterial : Option Str
  solderMask : Option Str
  viaPluggingType : Option Str
  panelSize : Option Str
  status : Str
  stgSignatureDate : Option Str
  stgSignatures : List Str
  customerSignatureDate : Option Str
  customerSignatures : List Str
  fileName : Str
  questions : List SchemaQuestion
deriving DecidableEq

/-- Python `x or now` for an optional string: the left value when it
is present and non-empty, else the fallback. -/
def strOrElse (o : Option Str) (now : Str) : Str :=
  match o with
  | some s => if s.isEmpty then now else s
  | Option.none => now

/-- `map_to_schema`: assemble the document from the metadata record,
the question list, the source file name and the current time (used
when the top date is absent); `status` defaults to `Closed`. -/
def map_to_schema (md : Metadata) (qs : List Question)
    (fileName now : Str) : Document :=
  { createdAt := strOrElse md.createdAt now
  , customerName := md.customerName
  , engineerName := md.engineerName
  , customerPN := md.customerPN
  , factoryPN := md.factoryPN
  , stgPN := md.stgPN
  , baseMaterial := md.baseMaterial
  , solderMask := md.solderMask
  , viaPluggingType := md.viaPluggingType
  , panelSize := md.panelSize
  , status := chars "Closed"
  , stgSignatureDate := md.stgSignatureDate
  , stgSignatures := md.stgSignatures
  , customerSignatureDate := md.customerSignatureDate
  , customerSignatures := md.customerSignatures
  , fileName := fileName
  , questions := qs.map (fun q =>
      { createdAt := strOrElse q.createdAt now
      , no := q.no
      , description := q.description
      , suggestion := q.suggestion
      , customerResponse := q.customerResponse
      , descriptionImages := q.descriptionImages
      , suggestionImages := q.suggestionImages
      , customerResponseImages := q.customerResponseImages }) }

/-- The per-question validation errors, with the enumeration index
starting at `i` (message indices are one-based). -/
def questionErrors (i : Nat) : List SchemaQuestion → List Str
  | [] => []
  | q :: qs =>
    (if q.no = [] then
      [chars "Question " ++ natToStr (i + 1) ++
        chars " missing required field: no"]
     else []) ++ questionErrors (i + 1) qs

/-- `validate_extracted_data`: collect the required-field errors in
order (customer name, file name, then each question), and report
validity as emptiness of the error list.  The document is read only;
nothing is mutated. -/
def validate_extracted_data (d : Document) : Bool × List Str :=
  let errors :=
    (if d.customerName = [] then
      [chars "Missing required field: customerName"] else []) ++
    (if d.fileName = [] then
      [chars "Missing required field: fileName"] else []) ++
    questionErrors 0 d.questions
  (errors.length == 0, errors)

/-- The info note written next to an outlier copy. -/
def outlierNoteContent (fileName filePath now : Str) : Str :=
  chars "Outlier File: " ++ fileName ++ ['\n'] ++
  chars "Original Path: " ++ filePath ++ ['\n'] ++
  chars "Processed Date: " ++ now ++ ['\n'] ++
  chars "Reason: Does not match any of the 3 supported templates (CEA, EQ, starteam)" ++
  ['\n']

/-- Outcome of processing one file: diverted as an outlier, marked
failed, or successfully processed. -/
inductive FileOutcome where
  | outlier
  | failed
  | processed
deriving DecidableEq

/-- Observable per-file effects of `process_excel_file`: the bytes
copied into the outlier directory, the sibling note, and the document
serialized to `index.json` — each `none` when that output was not
produced. -/
structure ProcTrace where
  outcome : FileOutcome
  outlierCopy : Option Str
  outlierNote : Option Str
  indexJson : Option Document
deriving DecidableEq

/-- `handle_outlier_file`: copy the original bytes verbatim and write
the info note; no extraction output. -/
def handle_outlier_file (origBytes filePath fileName now : Str) : ProcTrace :=
  { outcome := .outlier
  , outlierCopy := some origBytes
  , outlierNote := some (outlierNoteContent fileName filePath now)
  , indexJson := Option.none }

/-- `process_excel_file` for one loaded workbook.  `origBytes` are the
input file's bytes, `fileName` its base name, `now` the current
timestamp.  `extractionFault` models an exception raised anywhere in
the extraction/mapping region, caught by the per-file handler, which
marks the file failed without writing `index.json`.  A classification
miss goes to the outlier handler; a validation failure marks the file
failed and writes nothing; otherwise the document is written to
`index.json`. -/
def process_excel_file (wb : Workbook) (origBytes filePath fileName now : Str)
    (extractionFault : Bool) : ProcTrace :=
  match identify_template_type wb with
  | Option.none => handle_outlier_file origBytes filePath fileName now
  | some t =>
    if extractionFault then
      { outcome := .failed, outlierCopy := Option.none
      , outlierNote := Option.none, indexJson := Option.none }
    else
      let md := extract_metadata wb t
      let cellToImages := extract_images wb
      let qs := extract_questions wb t cellToImages
      let eqData := map_to_schema md qs fileName now
      let v := validate_extracted_data eqData
      if v.1 then
        { outcome := .processed, outlierCopy := Option.none
        , outlierNote := Option.none, indexJson := some eqData }
      else
        { outcome := .failed, outlierCopy := Option.none
        , outlierNote := Option.none, indexJson := Option.none }

/-- The document `process_excel_file` builds for a recognized
template (before validation). -/
def builtDocument (wb : Workbook) (t : Template) (fileName now : Str) :
    Document :=
  map_to_schema (extract_metadata wb t)
    (extract_questions wb t (extract_images wb)) fileName now

/-- Document with an empty customer name used to exercise C2. -/
def docNoCustomer : Document :=
  { createdAt := chars "T"
  , customerName := []
  , engineerName := Option.none
  , customerPN := []
  , factoryPN := []
  , stgPN := []
  , baseMaterial := Option.none
  , solderMask := Option.none
  , viaPluggingType := Option.none
  , panelSize := Option.none
  , status := chars "Closed"
  , stgSignatureDate := Option.none
  , stgSignatures := []
  , customerSignatureDate := Option.none
  , customerSignatures := []
  , fileName := chars "f.xlsx"
  , questions := [] }

/-- An approval-form shaped workbook with no keyword text. -/
def wbCEA : Workbook :=
  { first :=
    { name := chars "CEA"
    , cells := fun _ _ => CellValue.none
    , maxRow := 5
    , maxCol := 6
    , images := [] }
  , rest := [] }

/-- A questionnaire-shaped workbook with one question row carrying a
padded description. -/
def wbQText : Workbook :=
  { first :=
    { name := chars "Q"
    , cells := fun r c =>
        if r = 10 ∧ c = 1 then CellValue.str (chars "1")
        else if r = 10 ∧ c = 2 then CellValue.str (chars " hello ")
        else CellValue.none
    , maxRow := 10
    , maxCol := 4
    , images := [] }
  , rest := [] }

/-- A workbook whose question table holds a negative integer in the
number column. -/
def wbNegInt : Workbook :=
  { first :=
    { name := chars "Q"
    , cells := fun r c =>
        if r = 10 ∧ c = 1 then CellValue.int (-1) else CellValue.none
    , maxRow := 10
    , maxCol := 4
    , images := [] }
  , rest := [] }

/-- A workbook matching no template. -/
def wbUnknown : Workbook :=
  { first :=
    { name := chars "Sheet1"
    , cells := fun _ _ => CellValue.none
    , maxRow := 3
    , maxCol := 3
    , images := [] }
  , rest := [] }

/-- Number of occurrences of `f` across the three image lists bound
to one scanned row (proof-side abbreviation of the per-question
contribution to `imgCount`). -/
def rowImgCount (m : ImgMap) (t : Template) (f : Str) (r : Int) : Nat :=
  (dictGet m (cellCoordStr (descCol t) r)).count f +
    (dictGet m (cellCoordStr (suggCol t) r)).count f +
    (dictGet m (cellCoordStr (respCol t) r)).count f

/-- A workbook with three anchored drawings whose middle one fails to
decode. -/
def wbImgs : Workbook :=
  { first :=
    { name := chars "S"
    , cells := fun _ _ => CellValue.none
    , maxRow := 3
    , maxCol := 3
    , images := [⟨true, 1, 9, true⟩, ⟨true, 2, 9, false⟩, ⟨true, 3, 9, true⟩] }
  , rest := [] }

/-! ## Lemmas about decimal rendering -/

lemma natDigitsF_stable (n : Nat) : ∀ f, n < f → natDigitsF f n = natToStr n := by
  induction n using Nat.strong_induction_on with
  | _ n ih =>
    intro f hf
    cases f with
    | zero => omega
    | succ f' =>
      by_cases h : n < 10
      · simp [natDigitsF, natToStr, h]
      · have hpos : 0 < n := by omega
        have hd : n / 10 < n := Nat.div_lt_self hpos (by omega)
        have h1 : natDigitsF f' (n / 10) = natToStr (n / 10) :=
          ih (n / 10) hd f' (by omega)
        have h2 : natDigitsF n (n / 10) = natToStr (n / 10) :=
          ih (n / 10) hd n hd
        show natDigitsF (f' + 1) n = natDigitsF (n + 1) n
        rw [natDigitsF, natDigitsF, if_neg h, if_neg h, h1, h2]

lemma natToStr_eq (n : Nat) :
    natToStr n =
      if n < 10 then [digitChar n]
      else natToStr (n / 10) ++ [digitChar (n % 10)] := by
  by_cases h : n < 10
  · simp [natToStr, natDigitsF, h]
  · have hpos : 0 < n := by omega
    have hd : n / 10 < n := Nat.div_lt_self hpos (by omega)
    rw [if_neg h]
    show natDigitsF (n + 1) n = _
    rw [natDigitsF, if_neg h, natDigitsF_stable (n / 10) n hd]

lemma natToStr_ne_nil (n : Nat) : natToStr n ≠ [] := by
  rw [natToStr_eq]
  by_cases h : n < 10 <;> simp [h]

lemma digitChar_isDigit {k : Nat} (h : k < 10) : (digitChar k).isDigit = true := by
  revert h
  revert k
  decide

lemma digitChar_inj_aux : ∀ a < 10, ∀ b < 10, digitChar a = digitChar b → a = b := by
  decide

lemma digitChar_inj {a b : Nat} (ha : a < 10) (hb : b < 10)
    (h : digitChar a = digitChar b) : a = b :=
  digitChar_inj_aux a ha b hb h

lemma natToStr_all_digits (n : Nat) : ∀ c ∈ natToStr n, c.isDigit = true := by
  induction n using Nat.strong_induction_on with
  | _ n ih =>
    rw [natToStr_eq]
    by_cases h : n < 10
    · simp [h, digitChar_isDigit]
    · have hpos : 0 < n := by omega
      have hd : n / 10 < n := Nat.div_lt_self hpos (by omega)
      simp only [if_neg h, List.mem_append, List.mem_singleton]
      intro c hc
      rcases hc with hc | hc
      · exact ih (n / 10) hd c hc
      · rw [hc]
        exact digitChar_isDigit (Nat.mod_lt n (by omega))

lemma natToStr_inj : ∀ {a b : Nat}, natToStr a = natToStr b → a = b := by
  intro a
  induction a using Nat.strong_induction_on with
  | _ a ih =>
    intro b h
    rw [natToStr_eq a, natToStr_eq b] at h
    by_cases ha : a < 10 <;> by_cases hb : b < 10
    · rw [if_pos ha, if_pos hb] at h
      exact digitChar_inj ha hb (List.singleton_injective h)
    · rw [if_pos ha, if_neg hb] at h
      have hlen := congrArg List.length h
      rw [List.length_append, List.length_singleton, List.length_singleton] at hlen
      exact absurd (List.length_eq_zero.mp (by omega)) (natToStr_ne_nil (b / 10))
    · rw [if_neg ha, if_pos hb] at h
      have hlen := congrArg List.length h
      rw [List.length_append, List.length_singleton, List.length_singleton] at hlen
      exact absurd (List.length_eq_zero.mp (by omega)) (natToStr_ne_nil (a / 10))
    · rw [if_neg ha, if_neg hb] at h
      have hda : a / 10 < a := Nat.div_lt_self (by omega) (by omega)
      obtain ⟨h1, h2⟩ := List.append_inj' h rfl
      have hq : a / 10 = b / 10 := ih (a / 10) hda h1
      have hm : a % 10 = b % 10 :=
        digitChar_inj (Nat.mod_lt a (by omega)) (Nat.mod_lt b (by omega))
          (List.singleton_injective h2)
      omega

lemma pyIsdigit_natToStr (n : Nat) : pyIsdigit (natToStr n) = true := by
  have h1 := natToStr_ne_nil n
  have h2 := natToStr_all_digits n
  simp [pyIsdigit, List.isEmpty_iff, h1]
  intro c hc
  exact h2 c hc

lemma intToStr_nonneg {i : Int} (h : 0 ≤ i) : intToStr i = natToStr i.toNat := by
  simp [intToStr, Int.not_lt.mpr h]

lemma intToStr_neg {i : Int} (h : i < 0) :
    intToStr i = '-' :: natToStr (-i).toNat := by
  simp [intToStr, h]

lemma intToStr_inj_pos {a b : Int} (ha : 1 ≤ a) (hb : 1 ≤ b)
    (h : intToStr a = intToStr b) : a = b := by
  rw [intToStr_nonneg (by omega), intToStr_nonneg (by omega)] at h
  have := natToStr_inj h
  omega

/-! ## Lemmas about strip, split, join and containment -/

lemma pyStrip_eq (s : Str) :
    pyStrip s = List.rdropWhile pyIsWS (List.dropWhile pyIsWS s) := rfl

lemma dropWhile_head_false (p : Char → Bool) :
    ∀ (l : Str) (c : Char) (cs : Str), l.dropWhile p = c :: cs → p c = false := by
  intro l
  induction l with
  | nil => intro c cs h; simp at h
  | cons a t ih =>
    intro c cs h
    rw [List.dropWhile_cons] at h
    by_cases hp : p a
    · rw [if_pos hp] at h
      exact ih c cs h
    · rw [if_neg hp] at h
      rw [← (List.cons.injEq a t c cs).mp h |>.1]
      exact Bool.not_eq_true _ ▸ (by simpa using hp)

lemma pyStrip_idem (s : Str) : pyStrip (pyStrip s) = pyStrip s := by
  rw [pyStrip_eq s, pyStrip_eq]
  have h1 : List.dropWhile pyIsWS
      (List.rdropWhile pyIsWS (List.dropWhile pyIsWS s)) =
      List.rdropWhile pyIsWS (List.dropWhile pyIsWS s) := by
    rcases e : List.rdropWhile pyIsWS (List.dropWhile pyIsWS s) with _ | ⟨c, cs⟩
    · simp
    · have hpre : List.rdropWhile pyIsWS (List.dropWhile pyIsWS s) <+:
          List.dropWhile pyIsWS s := List.rdropWhile_prefix _ _
      rw [e] at hpre
      obtain ⟨t', ht⟩ := hpre
      have hc : pyIsWS c = false :=
        dropWhile_head_false pyIsWS s c (cs ++ t') (by rw [← ht]; simp)
      rw [List.dropWhile_cons, hc]
      simp
  rw [h1, List.rdropWhile_idempotent]

lemma mem_pyStrip {a : Char} {s : Str} (h : a ∈ pyStrip s) : a ∈ s := by
  rw [pyStrip_eq] at h
  have h1 := (List.rdropWhile_prefix pyIsWS (List.dropWhile pyIsWS s)).sublist.subset h
  exact (List.dropWhile_suffix pyIsWS).sublist.subset h1

lemma pySplit_ne_nil (sep : Char) (s : Str) : pySplit sep s ≠ [] := by
  cases s with
  | nil => simp [pySplit]
  | cons c cs =>
    rw [pySplit]
    by_cases h : c = sep
    · simp [h]
    · rw [if_neg h]
      rcases e : pySplit sep cs with _ | ⟨x, t⟩ <;> simp

lemma pySplit_not_mem (sep : Char) :
    ∀ (s : Str), ∀ x ∈ pySplit sep s, sep ∉ x := by
  intro s
  induction s with
  | nil => intro x hx; simp [pySplit] at hx; simp [hx]
  | cons c cs ih =>
    intro x hx
    rw [pySplit] at hx
    by_cases h : c = sep
    · rw [if_pos h] at hx
      rcases List.mem_cons.mp hx with hx | hx
      · simp [hx]
      · exact ih x hx
    · rw [if_neg h] at hx
      rcases e : pySplit sep cs with _ | ⟨y, t⟩
      · exact absurd e (pySplit_ne_nil sep cs)
      · rw [e] at hx
        rcases List.mem_cons.mp hx with hx | hx
        · intro hmem
          rw [hx] at hmem
          rcases List.mem_cons.mp hmem with hmem | hmem
          · exact h hmem.symm
          · exact ih y (by rw [e]; exact List.mem_cons_self y t) hmem
        · exact ih x (by rw [e]; exact List.mem_cons_of_mem y hx)

lemma pySplit_no_sep {sep : Char} {x : Str} (hx : sep ∉ x) :
    pySplit sep x = [x] := by
  induction x with
  | nil => rfl
  | cons c cs ih =>
    have hc : ¬c = sep := fun h => hx (h ▸ List.mem_cons_self c cs)
    have hcs : sep ∉ cs := fun h => hx (List.mem_cons_of_mem c h)
    rw [pySplit, if_neg hc, ih hcs]

lemma pySplit_append_cons (sep : Char) {x : Str} (rest : Str) (hx : sep ∉ x) :
    pySplit sep (x ++ sep :: rest) = x :: pySplit sep rest := by
  induction x with
  | nil => simp [pySplit]
  | cons c cs ih =>
    have hc : ¬c = sep := fun h => hx (h ▸ List.mem_cons_self c cs)
    have hcs : sep ∉ cs := fun h => hx (List.mem_cons_of_mem c h)
    rw [List.cons_append, pySplit, if_neg hc, ih hcs]

lemma pySplit_pyJoin (sep : Char) :
    ∀ (L : List Str), L ≠ [] → (∀ x ∈ L, sep ∉ x) →
      pySplit sep (pyJoin [sep] L) = L := by
  intro L
  induction L with
  | nil => intro h; exact absurd rfl h
  | cons x t ih =>
    intro _ hmem
    cases t with
    | nil => exact pySplit_no_sep (hmem x (List.mem_cons_self x []))
    | cons y t' =>
      have hx : sep ∉ x := hmem x (List.mem_cons_self x _)
      have hrest : ∀ z ∈ y :: t', sep ∉ z :=
        fun z hz => hmem z (List.mem_cons_of_mem x hz)
      rw [pyJoin]
      have : x ++ [sep] ++ pyJoin [sep] (y :: t') =
          x ++ sep :: pyJoin [sep] (y :: t') := by simp
      rw [this, pySplit_append_cons sep _ hx, ih (by simp) hrest]

lemma isPrefixOf_append (x b : Str) : x.isPrefixOf (x ++ b) = true := by
  induction x with
  | nil => simp [List.isPrefixOf]
  | cons c cs ih => simp [List.isPrefixOf, ih]

lemma pyContains_append (x a b : Str) : pyContains x (a ++ x ++ b) = true := by
  induction a with
  | nil =>
    rcases e : x ++ b with _ | ⟨c, cs⟩
    · rcases List.append_eq_nil.mp e with ⟨rfl, rfl⟩
      simp [pyContains]
    · cases x with
      | nil =>
        simp only [List.nil_append] at e ⊢
        rw [e, pyContains]
        simp [List.isPrefixOf]
      | cons d ds =>
        simp only [List.nil_append, List.cons_append] at e ⊢
        rw [e, pyContains, ← e]
        simp [isPrefixOf_append]
  | cons c a' ih =>
    simp only [List.cons_append]
    rw [pyContains]
    simp only [List.append_assoc] at ih ⊢
    rw [ih]
    simp

/-! ## Generic helper lemmas -/

lemma filterMap_ite {α β : Type} (p : α → Bool) (f : α → β) (l : List α) :
    l.filterMap (fun a => if p a then some (f a) else Option.none) =
      (l.filter p).map f := by
  induction l with
  | nil => rfl
  | cons a t ih => by_cases h : p a <;> simp [h, ih]

lemma intRange_nodup (a b : Int) : (intRange a b).Nodup := by
  rw [intRange]
  refine List.Nodup.map ?_ (List.nodup_range _)
  intro i j h
  have h' : a + Int.ofNat i = a + Int.ofNat j := h
  exact Int.ofNat.inj (add_left_cancel h')

lemma mem_intRange {a b r : Int} (h : r ∈ intRange a b) : a ≤ r ∧ r < b := by
  rw [intRange] at h
  obtain ⟨i, hi, he⟩ := List.mem_map.mp h
  rw [List.mem_range] at hi
  rw [Int.ofNat_eq_natCast] at he
  omega

lemma sum_eq_one_of_unique {l : List Int} (g : Int → Nat) (r : Int)
    (hl : l.Nodup) (hmem : r ∈ l) (h1 : g r = 1)
    (h0 : ∀ x ∈ l, x ≠ r → g x = 0) : (l.map g).sum = 1 := by
  induction l with
  | nil => simp at hmem
  | cons a t ih =>
    rw [List.map_cons, List.sum_cons]
    rcases List.mem_cons.mp hmem with rfl | hmem
    · have hz : (t.map g).sum = 0 := by
        apply List.sum_eq_zero
        intro x hx
        obtain ⟨y, hy, rfl⟩ := List.mem_map.mp hx
        exact h0 y (List.mem_cons_of_mem r hy)
          (fun he => (List.nodup_cons.mp hl).1 (he ▸ hy))
      rw [h1, hz]
    · have ha : g a = 0 :=
        h0 a (List.mem_cons_self a t)
          (fun he => (List.nodup_cons.mp hl).1 (he ▸ hmem))
      rw [ha]
      have := ih (List.nodup_cons.mp hl).2 hmem
        (fun x hx hne => h0 x (List.mem_cons_of_mem a hx) hne)
      omega

/-! ## Image-map lookup lemmas -/

lemma dictGet_count_zero {m : ImgMap} {f k : Str} (k' : Str)
    (hkey : ∀ p ∈ m, f ∈ p.2 → p.1 = k) (hne : k' ≠ k) :
    (dictGet m k').count f = 0 := by
  rcases hfind : m.find? (fun p => decide (p.1 = k')) with _ | p
  · simp [dictGet, hfind]
  · have hk' : p.1 = k' := by
      have := List.find?_some hfind
      simpa using this
    have hmem := List.mem_of_find?_eq_some hfind
    rw [dictGet, hfind]
    rw [List.count_eq_zero]
    intro habs
    exact hne (hk' ▸ hkey p hmem habs)

lemma cellCoordStr_row_inj {c r r' : Int} (hr : 1 ≤ r) (hr' : 1 ≤ r')
    (h : cellCoordStr c r = cellCoordStr c r') : r = r' := by
  have ht : intToStr r = intToStr r' := (List.cons.injEq _ _ _ _).mp h |>.2
  exact intToStr_inj_pos hr hr' ht

lemma cellCoordStr_ne_of_head {c c' : Int} (r r' : Int)
    (h : Char.ofNat (64 + c).toNat ≠ Char.ofNat (64 + c').toNat) :
    cellCoordStr c r ≠ cellCoordStr c' r' := by
  intro he
  exact h ((List.cons.injEq _ _ _ _).mp he).1

/-! ## Claim theorems -/

/-- C2: for every document, validation fails iff the customer name is
empty, the file name is empty, or some question's `no` is empty; the
pass flag is emptiness of the ordered violated-rule list; and the
result depends only on the customer name, the file name and the
questions' `no` fields, so a missing optional field (engineer name,
material, signatures) never causes a failure.  The validator is a
pure function of the document, which it does not mutate. -/
theorem c2_validator (d : Document) :
    ((validate_extracted_data d).1 = true ↔ (validate_extracted_data d).2 = [])
  ∧ ((validate_extracted_data d).1 = false ↔
      (d.customerName = [] ∨ d.fileName = [] ∨ ∃ q ∈ d.questions, q.no = []))
  ∧ (∀ d' : Document, d'.customerName = d.customerName →
      d'.fileName = d.fileName →
      d'.questions.map SchemaQuestion.no = d.questions.map SchemaQuestion.no →
      validate_extracted_data d' = validate_extracted_data d) := by
  have hq_nil : ∀ (i : Nat) (qs : List SchemaQuestion),
      questionErrors i qs = [] ↔ ∀ q ∈ qs, q.no ≠ [] := by
    intro i qs
    induction qs generalizing i with
    | nil => simp [questionErrors]
    | cons q qs ih =>
      by_cases h : q.no = []
      · simp [questionErrors, h]
      · simp [questionErrors, h, ih]
  have hq_congr : ∀ (qs qs' : List SchemaQuestion),
      qs.map SchemaQuestion.no = qs'.map SchemaQuestion.no →
      ∀ i, questionErrors i qs = questionErrors i qs' := by
    intro qs
    induction qs with
    | nil =>
      intro qs' h i
      cases qs' with
      | nil => rfl
      | cons q' qs'' => simp at h
    | cons q qs ih =>
      intro qs' h i
      cases qs' with
      | nil => simp at h
      | cons q' qs'' =>
        simp only [List.map_cons, List.cons.injEq] at h
        rw [questionErrors, questionErrors, h.1, ih qs'' h.2 (i + 1)]
  refine ⟨?_, ?_, ?_⟩
  · rw [validate_extracted_data]
    simp only [beq_iff_eq, List.length_eq_zero]
  · rw [validate_extracted_data]
    simp only [beq_eq_false_iff_ne, ne_eq, List.length_eq_zero,
      List.append_eq_nil]
    constructor
    · intro h
      by_contra hcon
      push_neg at hcon
      exact h ⟨⟨by rw [if_neg hcon.1], by rw [if_neg hcon.2.1]⟩,
        (hq_nil 0 d.questions).mpr hcon.2.2⟩
    · rintro (h | h | ⟨q, hq, hno⟩) hcon
      · rw [if_pos h] at hcon
        exact List.cons_ne_nil _ _ hcon.1.1
      · rw [if_pos h] at hcon
        exact List.cons_ne_nil _ _ hcon.1.2
      · exact (hq_nil 0 d.questions).mp hcon.2 q hq hno
  · intro d' h1 h2 h3
    rw [validate_extracted_data, validate_extracted_data, h1, h2,
      hq_congr d'.questions d.questions h3 0]

/-- C2 witness: a document with an empty customer name fails. -/
theorem c2_validator_witness : (validate_extracted_data docNoCustomer).1 = false :=
  ((c2_validator docNoCustomer).2.1).mpr (Or.inl rfl)

/-- C4: a starteam signature cell `"15.03.2024\nJohn Doe"` produces
the signature date 2024-03-15 (rendered through `isoformat`) and the
signature text `John Doe`; and whenever the stripped first line of
the cell fails to parse as `DD.MM.YYYY`, no date is produced and the
whole original text is kept as the signature. -/
theorem c4_signature :
    parse_signature_cell (chars "15.03.2024\nJohn Doe") =
      (some (chars "2024-03-15T00:00:00"), [chars "John Doe"])
  ∧ ∀ s : Str,
      parseDDMMYYYY (pyStrip ((pySplit '\n' s).headD [])) = Option.none →
      parse_signature_cell s = (Option.none, [s]) := by
  constructor
  · decide
  · intro s h
    rcases hs : pySplit '\n' s with _ | ⟨l0, t⟩
    · rw [parse_signature_cell, hs]
    · cases t with
      | nil => rw [parse_signature_cell, hs]
      | cons l1 rest =>
        rw [hs] at h
        simp only [List.headD_cons] at h
        rw [parse_signature_cell, hs]
        show (match parseDDMMYYYY (pyStrip l0) with
          | some (d, m, y) =>
            (some (isoOfDMY d m y), [pyStrip (pyJoin ['\n'] (l1 :: rest))])
          | Option.none => (Option.none, [s])) = (Option.none, [s])
        rw [h]

/-- C4 witness: a malformed first line keeps the full text. -/
theorem c4_signature_witness :
    parse_signature_cell (chars "not-a-date\nJohn Doe") =
      (Option.none, [chars "not-a-date\nJohn Doe"]) :=
  c4_signature.2 (chars "not-a-date\nJohn Doe") (by decide)

/-- C5: part-number splitting produces no empty elements, preserves
the source line order (the result is a sublist of the stripped source
lines in order), and is idempotent: joining the extracted list with
newlines and re-splitting it reproduces the same list. -/
theorem c5_part_numbers (s : Str) :
    (∀ x ∈ splitPN s, x ≠ [])
  ∧ List.Sublist (splitPN s) ((pySplit '\n' s).map pyStrip)
  ∧ splitPN (pyJoin ['\n'] (splitPN s)) = splitPN s := by
  have helem : ∀ x ∈ splitPN s, pyStrip x = x ∧ x ≠ [] ∧ '\n' ∉ x := by
    intro x hx
    rw [splitPN] at hx
    obtain ⟨pn, hpn, hif⟩ := List.mem_filterMap.mp hx
    by_cases hc : pyStrip pn ≠ []
    · rw [if_pos hc] at hif
      have hx' : x = pyStrip pn := (Option.some.injEq _ _).mp hif |>.symm
      subst hx'
      refine ⟨pyStrip_idem pn, hc, ?_⟩
      intro hmem
      exact pySplit_not_mem '\n' s pn hpn (mem_pyStrip hmem)
    · rw [if_neg hc] at hif
      exact absurd hif (by simp)
  have hsub : ∀ (L : List Str),
      List.Sublist
        (L.filterMap (fun x => if x ≠ [] then some x else Option.none)) L := by
    intro L
    induction L with
    | nil => simp
    | cons z zs ih =>
      rw [List.filterMap_cons]
      by_cases hz : z ≠ []
      · rw [if_pos hz]
        exact List.Sublist.cons₂ z ih
      · rw [if_neg hz]
        exact List.Sublist.cons z ih
  refine ⟨fun x hx => (helem x hx).2.1, ?_, ?_⟩
  · have he : splitPN s =
        ((pySplit '\n' s).map pyStrip).filterMap
          (fun x => if x ≠ [] then some x else Option.none) := by
      rw [splitPN, List.filterMap_map]
      rfl
    rw [he]
    exact hsub _
  · rcases e : splitPN s with _ | ⟨x, t⟩
    · decide
    · have hne : splitPN s ≠ [] := by rw [e]; exact List.cons_ne_nil _ _
      have hnosep : ∀ y ∈ splitPN s, '\n' ∉ y :=
        fun y hy => (helem y hy).2.2
      rw [← e, splitPN, pySplit_pyJoin '\n' (splitPN s) hne hnosep]
      have : ∀ (L : List Str), (∀ y ∈ L, pyStrip y = y ∧ y ≠ []) →
          L.filterMap (fun pn =>
            if pyStrip pn ≠ [] then some (pyStrip pn) else Option.none) = L := by
        intro L
        induction L with
        | nil => intro _; rfl
        | cons z zs ih =>
          intro hL
          have hz := hL z (List.mem_cons_self z zs)
          rw [List.filterMap_cons]
          rw [if_pos (hz.1.symm ▸ hz.2)]
          rw [hz.1, ih (fun y hy => hL y (List.mem_cons_of_mem z hy))]
      exact this (splitPN s) (fun y hy => ⟨(helem y hy).1, (helem y hy).2.1⟩)

/-- C5 witness: a concrete multi-line cell. -/
theorem c5_part_numbers_witness :
    chars "a" ≠ [] ∧
    splitPN (pyJoin ['\n'] (splitPN (chars " a \n\nb"))) =
      splitPN (chars " a \n\nb") :=
  ⟨(c5_part_numbers (chars " a \n\nb")).1 (chars "a") (by decide),
   (c5_part_numbers (chars " a \n\nb")).2.2⟩

/-- C8: a workbook whose first sheet is named exactly `CEA`, has at
most six columns, and whose sampled text contains none of the keyword
markers still classifies as the approval-form template through the
structural fallback. -/
theorem c8_cea_fallback (wb : Workbook)
    (hname : wb.first.name = chars "CEA")
    (hcols : wb.first.maxCol ≤ 6)
    (h1 : pyContains (chars "CEA") (sampleText wb.first) = false)
    (h2 : pyContains (chars "Customer Engineering Approval")
      (sampleText wb.first) = false)
    (h3 : pyContains (chars "Engineering Questionnaire")
      (sampleText wb.first) = false)
    (h4 : pyContains (chars "EQ") (sampleText wb.first) = false)
    (h5 : pyContains (chars "STG Proposal") (sampleText wb.first) = false)
    (h6 : pyContains (chars "Customer Decision")
      (sampleText wb.first) = false) :
    identify_template_type wb = some Template.CEA := by
  simp [identify_template_type, h1, h3, h4, hname, hcols]

/-- C8 witness: the empty `CEA`-named sheet classifies as `CEA`. -/
theorem c8_cea_fallback_witness : identify_template_type wbCEA = some Template.CEA :=
  c8_cea_fallback wbCEA rfl (by decide) (by decide) (by decide) (by decide)
    (by decide) (by decide) (by decide)

/-- C10: in every produced question, each optional text field
(description, suggestion, customer response) is either absent or a
non-empty string equal to its own stripped form (no surrounding
whitespace); it is never the empty or whitespace-only string. -/
theorem c10_optional_fields (wb : Workbook) (t : Template) (m : ImgMap) :
    ∀ q ∈ extract_questions wb t m,
      ∀ o ∈ [q.description, q.suggestion, q.customerResponse],
        o = Option.none ∨ ∃ s, o = some s ∧ s ≠ [] ∧ pyStrip s = s := by
  have hopt : ∀ x : Str, optText x = Option.none ∨
      ∃ s, optText x = some s ∧ s ≠ [] ∧ pyStrip s = s := by
    intro x
    rw [optText]
    by_cases h : (!x.isEmpty && !(pyStrip x).isEmpty) = true
    · rw [if_pos h]
      refine Or.inr ⟨pyStrip x, rfl, ?_, pyStrip_idem x⟩
      have h2 := ((Bool.and_eq_true _ _).mp h).2
      simpa [List.isEmpty_iff] using h2
    · rw [if_neg h]
      exact Or.inl rfl
  intro q hq o ho
  rw [extract_questions] at hq
  obtain ⟨r, hr, hif⟩ := List.mem_filterMap.mp hq
  by_cases hcell : isQuestionCell (wb.first.cells r (noCol t)) = true
  · rw [if_pos hcell] at hif
    have hqe : q = mkQuestion wb.first t m (questionCreatedAt wb.first) r :=
      ((Option.some.injEq _ _).mp hif).symm
    subst hqe
    rcases List.mem_cons.mp ho with rfl | ho
    · exact hopt _
    rcases List.mem_cons.mp ho with rfl | ho
    · exact hopt _
    rcases List.mem_cons.mp ho with rfl | ho
    · exact hopt _
    · simp at ho
  · rw [if_neg hcell] at hif
    exact absurd hif (by simp)

/-- C10 witness: the question's description is a stripped non-empty
string. -/
theorem c10_optional_fields_witness :
    some (chars "hello") = Option.none ∨
    ∃ s, some (chars "hello") = some s ∧ s ≠ [] ∧ pyStrip s = s :=
  c10_optional_fields wbQText Template.CEA []
    (mkQuestion wbQText.first Template.CEA []
      (questionCreatedAt wbQText.first) 10)
    (by decide) (some (chars "hello")) (by decide)

/-- C1 (amended): a question record is produced for a row iff its
number-column cell holds an integer or an all-digit string; every
produced `no` is non-empty; `no` is a digit string whenever the cell
held a digit string or a non-negative integer, while a negative
integer cell yields a minus sign followed by digits. -/
theorem c1_question_rows (wb : Workbook) (t : Template) (m : ImgMap) :
    (∀ v : CellValue, isQuestionCell v = true ↔
      ((∃ i, v = CellValue.int i) ∨
       (∃ s, v = CellValue.str s ∧ pyIsdigit s = true)))
  ∧ extract_questions wb t m =
      ((intRange (startRow t + 1) ((wb.first.maxRow : Int) + 1)).filter
        (fun r => isQuestionCell (wb.first.cells r (noCol t)))).map
        (mkQuestion wb.first t m (questionCreatedAt wb.first))
  ∧ (∀ q ∈ extract_questions wb t m,
      q.no ≠ [] ∧
      (pyIsdigit q.no = true ∨
       ∃ ds, q.no = '-' :: ds ∧ pyIsdigit ds = true)) := by
  refine ⟨?_, ?_, ?_⟩
  · intro v
    cases v with
    | none => simp [isQuestionCell]
    | str s => simp [isQuestionCell]
    | int i => simp [isQuestionCell]
    | date s iso => simp [isQuestionCell]
  · rw [extract_questions]
    exact filterMap_ite _ _ _
  · intro q hq
    rw [extract_questions] at hq
    obtain ⟨r, hr, hif⟩ := List.mem_filterMap.mp hq
    by_cases hcell : isQuestionCell (wb.first.cells r (noCol t)) = true
    · rw [if_pos hcell] at hif
      have hqe : q = mkQuestion wb.first t m (questionCreatedAt wb.first) r :=
        ((Option.some.injEq _ _).mp hif).symm
      subst hqe
      have hno : (mkQuestion wb.first t m (questionCreatedAt wb.first) r).no =
          cellStr (wb.first.cells r (noCol t)) := rfl
      rw [hno]
      rcases hv : wb.first.cells r (noCol t) with _ | s | i | ⟨s, iso⟩
      · rw [hv] at hcell
        simp [isQuestionCell] at hcell
      · rw [hv] at hcell
        simp only [isQuestionCell] at hcell
        have hse : s ≠ [] := by
          intro he
          rw [he] at hcell
          simp [pyIsdigit] at hcell
        constructor
        · simpa [cellStr] using hse
        · exact Or.inl (by simpa [cellStr] using hcell)
      · by_cases hpos : 0 ≤ i
        · simp only [cellStr]
          rw [intToStr_nonneg hpos]
          exact ⟨natToStr_ne_nil _, Or.inl (pyIsdigit_natToStr _)⟩
        · simp only [cellStr]
          rw [intToStr_neg (by omega)]
          exact ⟨List.cons_ne_nil _ _,
            Or.inr ⟨natToStr (-i).toNat, rfl, pyIsdigit_natToStr _⟩⟩
      · rw [hv] at hcell
        simp [isQuestionCell] at hcell
    · rw [if_neg hcell] at hif
      exact absurd hif (by simp)

/-- C1 counterexample: a number cell holding the integer `-1` is an
integer cell, so a question is produced, but its `no` is `-1`, which
is not a string composed only of digits. -/
theorem c1_counterexample :
    wbNegInt.first.cells 10 1 = CellValue.int (-1)
  ∧ (extract_questions wbNegInt Template.CEA []).map Question.no = [chars "-1"]
  ∧ pyIsdigit (chars "-1") = false := by
  refine ⟨by decide, by decide, by decide⟩

/-- C1 witness: the amended claim applied to the negative-integer
question. -/
theorem c1_question_rows_witness :
    chars "-1" ≠ [] ∧
    (pyIsdigit (chars "-1") = true ∨
     ∃ ds, chars "-1" = '-' :: ds ∧ pyIsdigit ds = true) :=
  (c1_question_rows wbNegInt Template.CEA []).2.2
    (mkQuestion wbNegInt.first Template.CEA []
      (questionCreatedAt wbNegInt.first) 10)
    (by decide)

/-- C6: `index.json` is written iff the file classified, no fault
occurred, and the built document passes validation; every written
document is valid; and a validation failure marks the file failed
without writing anything. -/
theorem c6_output_iff_valid (wb : Workbook)
    (origBytes filePath fileName now : Str) (fault : Bool) :
    (∀ d, (process_excel_file wb origBytes filePath fileName now fault).indexJson
        = some d → (validate_extracted_data d).1 = true)
  ∧ ((process_excel_file wb origBytes filePath fileName now fault).indexJson
        ≠ Option.none ↔
      ∃ t, identify_template_type wb = some t ∧ fault = false ∧
        (validate_extracted_data (builtDocument wb t fileName now)).1 = true)
  ∧ (∀ t, identify_template_type wb = some t → fault = false →
      (validate_extracted_data (builtDocument wb t fileName now)).1 = false →
      (process_excel_file wb origBytes filePath fileName now fault).outcome
          = FileOutcome.failed ∧
      (process_excel_file wb origBytes filePath fileName now fault).indexJson
          = Option.none) := by
  rcases hid : identify_template_type wb with _ | t
  · rw [process_excel_file, hid]
    refine ⟨?_, ?_, ?_⟩
    · intro d h
      exact absurd h (by simp [handle_outlier_file])
    · simp [handle_outlier_file]
    · intro t' h
      exact absurd h (by simp)
  · cases fault with
    | true =>
      rw [process_excel_file, hid]
      refine ⟨?_, ?_, ?_⟩
      · intro d h
        exact absurd h (by simp)
      · simp
      · intro t' _ hf
        exact absurd hf (by simp)
    | false =>
      have hproc : process_excel_file wb origBytes filePath fileName now false =
          (if (validate_extracted_data (builtDocument wb t fileName now)).1 then
            { outcome := FileOutcome.processed, outlierCopy := Option.none
            , outlierNote := Option.none
            , indexJson := some (builtDocument wb t fileName now) }
          else
            { outcome := FileOutcome.failed, outlierCopy := Option.none
            , outlierNote := Option.none, indexJson := Option.none }) := by
        rw [process_excel_file, hid]
        rfl
      rcases hv : (validate_extracted_data (builtDocument wb t fileName now)).1
      · refine ⟨?_, ?_, ?_⟩
        · intro d h
          rw [hproc, if_neg (by simp [hv])] at h
          exact absurd h (by simp)
        · constructor
          · intro h
            rw [hproc, if_neg (by simp [hv])] at h
            exact absurd rfl h
          · rintro ⟨t', ht', _, hv'⟩
            have ht : t' = t := ((Option.some.injEq t t').mp ht').symm
            rw [ht] at hv'
            rw [hv'] at hv
            exact absurd hv (by simp)
        · intro t' ht' _ _
          rw [hproc, if_neg (by simp [hv])]
          exact ⟨rfl, rfl⟩
      · refine ⟨?_, ?_, ?_⟩
        · intro d h
          rw [hproc, if_pos hv] at h
          simp only [Option.some.injEq] at h
          rw [← h]
          exact hv
        · constructor
          · intro _
            exact ⟨t, rfl, rfl, hv⟩
          · intro _
            rw [hproc, if_pos hv]
            simp
        · intro t' ht' _ hv'
          have ht : t' = t := ((Option.some.injEq t t').mp ht').symm
          rw [ht] at hv'
          rw [hv'] at hv
          exact absurd hv (by simp)

/-- C6 witness: the empty `CEA` workbook has an empty customer name,
so validation fails, the file is marked failed, and no `index.json`
is produced. -/
theorem c6_output_iff_valid_witness :
    (process_excel_file wbCEA (chars "B") (chars "p") (chars "f.xlsx")
      (chars "T") false).outcome = FileOutcome.failed ∧
    (process_excel_file wbCEA (chars "B") (chars "p") (chars "f.xlsx")
      (chars "T") false).indexJson = Option.none :=
  (c6_output_iff_valid wbCEA (chars "B") (chars "p") (chars "f.xlsx")
    (chars "T") false).2.2 Template.CEA (by decide) rfl (by decide)

/-- C7: when the classifier recognizes no template, the file is
routed to the outlier path: the original bytes are copied verbatim, a
sibling note holding the original path, the processing timestamp and
the fixed rejection reason is written, and no document output is
produced. -/
theorem c7_outlier_routing (wb : Workbook)
    (origBytes filePath fileName now : Str) (fault : Bool)
    (h : identify_template_type wb = Option.none) :
    process_excel_file wb origBytes filePath fileName now fault =
      { outcome := FileOutcome.outlier
      , outlierCopy := some origBytes
      , outlierNote := some (outlierNoteContent fileName filePath now)
      , indexJson := Option.none }
  ∧ pyContains filePath (outlierNoteContent fileName filePath now) = true
  ∧ pyContains now (outlierNoteContent fileName filePath now) = true
  ∧ pyContains
      (chars "Reason: Does not match any of the 3 supported templates (CEA, EQ, starteam)")
      (outlierNoteContent fileName filePath now) = true := by
  refine ⟨?_, ?_, ?_, ?_⟩
  · rw [process_excel_file, h]
    rfl
  · have := pyContains_append filePath
      (chars "Outlier File: " ++ fileName ++ ['\n'] ++ chars "Original Path: ")
      (['\n'] ++ chars "Processed Date: " ++ now ++ ['\n'] ++
        chars "Reason: Does not match any of the 3 supported templates (CEA, EQ, starteam)" ++
        ['\n'])
    rw [outlierNoteContent]
    simp only [List.append_assoc] at this ⊢
    exact this
  · have := pyContains_append now
      (chars "Outlier File: " ++ fileName ++ ['\n'] ++ chars "Original Path: " ++
        filePath ++ ['\n'] ++ chars "Processed Date: ")
      (['\n'] ++
        chars "Reason: Does not match any of the 3 supported templates (CEA, EQ, starteam)" ++
        ['\n'])
    rw [outlierNoteContent]
    simp only [List.append_assoc] at this ⊢
    exact this
  · have := pyContains_append
      (chars "Reason: Does not match any of the 3 supported templates (CEA, EQ, starteam)")
      (chars "Outlier File: " ++ fileName ++ ['\n'] ++ chars "Original Path: " ++
        filePath ++ ['\n'] ++ chars "Processed Date: " ++ now ++ ['\n'])
      (['\n'])
    rw [outlierNoteContent]
    simp only [List.append_assoc] at this ⊢
    exact this

/-- C7 witness: the unrecognized workbook is diverted with its bytes
and the note, and no document output. -/
theorem c7_outlier_routing_witness :
    process_excel_file wbUnknown (chars "BYTES") (chars "in/f.xlsx")
      (chars "f.xlsx") (chars "2024") true =
      { outcome := FileOutcome.outlier
      , outlierCopy := some (chars "BYTES")
      , outlierNote := some (outlierNoteContent (chars "f.xlsx")
          (chars "in/f.xlsx") (chars "2024"))
      , indexJson := Option.none } :=
  (c7_outlier_routing wbUnknown (chars "BYTES") (chars "in/f.xlsx")
    (chars "f.xlsx") (chars "2024") true (by decide)).1

lemma coord_ne_row {c x r : Int} (hx : 1 ≤ x) (hr : 1 ≤ r) (hne : x ≠ r) :
    cellCoordStr c x ≠ cellCoordStr c r :=
  fun h => hne (cellCoordStr_row_inj hx hr h)

/-- C3: an image file name that occurs in the cell-to-images mapping
exactly once, under the key that is the exact coordinate of the
description, suggestion or response cell of a question row, appears
in exactly one image list of exactly one produced question — and in
the list corresponding to its own column. -/
theorem c3_exact_image_binding (wb : Workbook) (t : Template) (m : ImgMap)
    (f : Str) (r c : Int)
    (hr : r ∈ intRange (startRow t + 1) ((wb.first.maxRow : Int) + 1))
    (hq : isQuestionCell (wb.first.cells r (noCol t)) = true)
    (hc : c = descCol t ∨ c = suggCol t ∨ c = respCol t)
    (hcount : (dictGet m (cellCoordStr c r)).count f = 1)
    (hkey : ∀ p ∈ m, f ∈ p.2 → p.1 = cellCoordStr c r) :
    imgCount f (extract_questions wb t m) = 1
  ∧ ∃ q ∈ extract_questions wb t m,
      ((c = descCol t ∧ f ∈ q.descriptionImages) ∨
       (c = suggCol t ∧ f ∈ q.suggestionImages) ∨
       (c = respCol t ∧ f ∈ q.customerResponseImages)) := by
  have hr1 : 1 ≤ r := by
    have hge := (mem_intRange hr).1
    cases t <;> simp [startRow] at hge <;> omega
  have hzero : ∀ x : Int, 1 ≤ x → x ≠ r → ∀ d : Int,
      (d = descCol t ∨ d = suggCol t ∨ d = respCol t) →
      cellCoordStr d x ≠ cellCoordStr c r := by
    intro x hx hne d hd
    by_cases hdc : d = c
    · subst hdc
      exact coord_ne_row hx hr1 hne
    · cases t <;> rcases hd with rfl | rfl | rfl <;>
        rcases hc with rfl | rfl | rfl <;>
        first
          | exact absurd rfl hdc
          | exact cellCoordStr_ne_of_head x r (by decide)
  have hrowzero : ∀ x : Int, 1 ≤ x → x ≠ r → rowImgCount m t f x = 0 := by
    intro x hx hne
    rw [rowImgCount,
      dictGet_count_zero _ hkey (hzero x hx hne _ (Or.inl rfl)),
      dictGet_count_zero _ hkey (hzero x hx hne _ (Or.inr (Or.inl rfl))),
      dictGet_count_zero _ hkey (hzero x hx hne _ (Or.inr (Or.inr rfl)))]
  have hrow_ne : ∀ d : Int, d ≠ c →
      (d = descCol t ∨ d = suggCol t ∨ d = respCol t) →
      cellCoordStr d r ≠ cellCoordStr c r := by
    intro d hdc hd
    cases t <;> rcases hd with rfl | rfl | rfl <;>
      rcases hc with rfl | rfl | rfl <;>
      first
        | exact absurd rfl hdc
        | exact cellCoordStr_ne_of_head r r (by decide)
  have hone : rowImgCount m t f r = 1 := by
    rcases hc with rfl | rfl | rfl
    · rw [rowImgCount, hcount,
        dictGet_count_zero _ hkey (hrow_ne _ (by cases t <;> decide) (Or.inr (Or.inl rfl))),
        dictGet_count_zero _ hkey (hrow_ne _ (by cases t <;> decide) (Or.inr (Or.inr rfl)))]
    · rw [rowImgCount, hcount,
        dictGet_count_zero _ hkey (hrow_ne _ (by cases t <;> decide) (Or.inl rfl)),
        dictGet_count_zero _ hkey (hrow_ne _ (by cases t <;> decide) (Or.inr (Or.inr rfl)))]
    · rw [rowImgCount, hcount,
        dictGet_count_zero _ hkey (hrow_ne _ (by cases t <;> decide) (Or.inl rfl)),
        dictGet_count_zero _ hkey (hrow_ne _ (by cases t <;> decide) (Or.inr (Or.inl rfl)))]
  have hrw : extract_questions wb t m =
      ((intRange (startRow t + 1) ((wb.first.maxRow : Int) + 1)).filter
        (fun x => isQuestionCell (wb.first.cells x (noCol t)))).map
        (mkQuestion wb.first t m (questionCreatedAt wb.first)) := by
    rw [extract_questions]
    exact filterMap_ite _ _ _
  constructor
  · rw [hrw, imgCount, List.map_map]
    apply sum_eq_one_of_unique _ r
    · exact List.Nodup.filter _ (intRange_nodup _ _)
    · exact List.mem_filter.mpr ⟨hr, hq⟩
    · exact hone
    · intro x hxl hxne
      have hxr := List.mem_filter.mp hxl
      have hx1 : 1 ≤ x := by
        have hge := (mem_intRange hxr.1).1
        cases t <;> simp [startRow] at hge <;> omega
      exact hrowzero x hx1 hxne
  · refine ⟨mkQuestion wb.first t m (questionCreatedAt wb.first) r, ?_, ?_⟩
    · rw [hrw]
      exact List.mem_map.mpr ⟨r, List.mem_filter.mpr ⟨hr, hq⟩, rfl⟩
    · rcases hc with rfl | rfl | rfl
      · exact Or.inl ⟨rfl, List.count_pos_iff.mp
          (show 0 < List.count f (dictGet m (cellCoordStr (descCol t) r)) by
            rw [hcount]
            omega)⟩
      · exact Or.inr (Or.inl ⟨rfl, List.count_pos_iff.mp
          (show 0 < List.count f (dictGet m (cellCoordStr (suggCol t) r)) by
            rw [hcount]
            omega)⟩)
      · exact Or.inr (Or.inr ⟨rfl, List.count_pos_iff.mp
          (show 0 < List.count f (dictGet m (cellCoordStr (respCol t) r)) by
            rw [hcount]
            omega)⟩)

/-- C3 witness: one image mapped at the description cell `B10` of the
question row 10 lands exactly once, in that question's description
list. -/
theorem c3_exact_image_binding_witness :
    imgCount (chars "image_1.png")
      (extract_questions wbQText Template.CEA
        [(chars "B10", [chars "image_1.png"])]) = 1 ∧
    ∃ q ∈ extract_questions wbQText Template.CEA
        [(chars "B10", [chars "image_1.png"])],
      (((2 : Int) = descCol Template.CEA ∧
          chars "image_1.png" ∈ q.descriptionImages) ∨
       ((2 : Int) = suggCol Template.CEA ∧
          chars "image_1.png" ∈ q.suggestionImages) ∨
       ((2 : Int) = respCol Template.CEA ∧
          chars "image_1.png" ∈ q.customerResponseImages)) :=
  c3_exact_image_binding wbQText Template.CEA
    [(chars "B10", [chars "image_1.png"])] (chars "image_1.png") 10 2
    (by decide) (by decide) (Or.inl rfl) (by decide) (by decide)

/-! ## Lemmas for the image extractor -/

lemma mapNames_insertImage (m : ImgMap) (k v : Str) :
    (mapNames (insertImage m k v)).Perm (mapNames m ++ [v]) := by
  induction m with
  | nil => simp [insertImage, mapNames]
  | cons p rest ih =>
    rcases p with ⟨k0, vs⟩
    rw [insertImage]
    by_cases h : k0 = k
    · rw [if_pos h]
      show ((vs ++ [v]) ++ mapNames rest).Perm ((vs ++ mapNames rest) ++ [v])
      rw [List.append_assoc vs [v], List.append_assoc vs (mapNames rest)]
      exact List.Perm.append_left vs List.perm_append_comm
    · rw [if_neg h]
      show (vs ++ mapNames (insertImage rest k v)).Perm
        ((vs ++ mapNames rest) ++ [v])
      rw [List.append_assoc vs (mapNames rest)]
      exact List.Perm.append_left vs ih

lemma extract_images_names : ∀ (ds : List Drawing) (m : ImgMap) (c : Nat),
    (mapNames ((ds.foldl extractImagesStep (m, c)).1)).Perm
      (mapNames m ++ (usedNums c ds).map imageFileName) := by
  intro ds
  induction ds with
  | nil => intro m c; simp [usedNums]
  | cons d ds ih =>
    intro m c
    rcases d with ⟨ha, acol, arow, dok⟩
    cases ha <;> cases dok
    · exact ih m c
    · exact ih m c
    · exact ih m (c + 1)
    · have h1 := ih (insertImage m
        (anchorCoord ⟨true, acol, arow, true⟩) (imageFileName c)) (c + 1)
      have h2 := mapNames_insertImage m
        (anchorCoord ⟨true, acol, arow, true⟩) (imageFileName c)
      show (mapNames ((ds.foldl extractImagesStep
          (insertImage m (anchorCoord ⟨true, acol, arow, true⟩)
            (imageFileName c), c + 1)).1)).Perm
        (mapNames m ++ (imageFileName c ::
          (usedNums (c + 1) ds).map imageFileName))
      have h3 : (mapNames m ++ [imageFileName c]) ++
          (usedNums (c + 1) ds).map imageFileName =
          mapNames m ++ (imageFileName c ::
            (usedNums (c + 1) ds).map imageFileName) := by
        rw [List.append_assoc]
        rfl
      exact (h1.trans (List.Perm.append_right _ h2)).trans (h3 ▸ List.Perm.refl _)

lemma usedNums_bound_pairwise : ∀ (ds : List Drawing) (c : Nat),
    (∀ n ∈ usedNums c ds, c ≤ n) ∧ (usedNums c ds).Pairwise (· < ·) := by
  intro ds
  induction ds with
  | nil => intro c; simp [usedNums]
  | cons d ds ih =>
    intro c
    rcases d with ⟨ha, acol, arow, dok⟩
    cases ha <;> cases dok
    · exact ih c
    · exact ih c
    · refine ⟨fun n hn => ?_, (ih (c + 1)).2⟩
      have := (ih (c + 1)).1 n hn
      omega
    · show (∀ n ∈ c :: usedNums (c + 1) ds, c ≤ n) ∧
        (c :: usedNums (c + 1) ds).Pairwise (· < ·)
      refine ⟨?_, ?_⟩
      · intro n hn
        rcases List.mem_cons.mp hn with rfl | hn
        · omega
        · have := (ih (c + 1)).1 n hn
          omega
      · rw [List.pairwise_cons]
        refine ⟨fun n hn => ?_, (ih (c + 1)).2⟩
        have := (ih (c + 1)).1 n hn
        omega

lemma usedNums_spec : ∀ (ds : List Drawing) (c n : Nat), n ∈ usedNums c ds →
    ∃ d, (ds.filter (fun x => x.hasAnchor))[n - c]? = some d ∧
      d.decodeOk = true := by
  intro ds
  induction ds with
  | nil => intro c n hn; simp [usedNums] at hn
  | cons d ds ih =>
    intro c n hn
    rcases d with ⟨ha, acol, arow, dok⟩
    cases ha <;> cases dok
    · exact ih c n hn
    · exact ih c n hn
    · have hge : c + 1 ≤ n := (usedNums_bound_pairwise ds (c + 1)).1 n hn
      obtain ⟨d', hd', hok⟩ := ih (c + 1) n hn
      refine ⟨d', ?_, hok⟩
      show ((⟨true, acol, arow, false⟩ : Drawing) ::
        ds.filter (fun x => x.hasAnchor))[n - c]? = some d'
      have hsub : n - c = (n - (c + 1)) + 1 := by omega
      rw [hsub, List.getElem?_cons_succ]
      exact hd'
    · rcases List.mem_cons.mp hn with rfl | hn
      · refine ⟨⟨true, acol, arow, true⟩, ?_, rfl⟩
        show ((⟨true, acol, arow, true⟩ : Drawing) ::
          ds.filter (fun x => x.hasAnchor))[n - n]? = some _
        rw [Nat.sub_self]
        simp
      · have hge : c + 1 ≤ n := (usedNums_bound_pairwise ds (c + 1)).1 n hn
        obtain ⟨d', hd', hok⟩ := ih (c + 1) n hn
        refine ⟨d', ?_, hok⟩
        show ((⟨true, acol, arow, true⟩ : Drawing) ::
          ds.filter (fun x => x.hasAnchor))[n - c]? = some d'
        have hsub : n - c = (n - (c + 1)) + 1 := by omega
        rw [hsub, List.getElem?_cons_succ]
        exact hd'

lemma imageFileName_inj {a b : Nat} (h : imageFileName a = imageFileName b) :
    a = b := by
  rw [imageFileName, imageFileName, List.append_assoc, List.append_assoc] at h
  have h1 := List.append_cancel_left h
  have h2 := List.append_cancel_right h1
  exact natToStr_inj h2

/-- C9: the file names in the cell-to-images mapping are exactly
`image_<n>.png` for the counter values of the successfully decoded
anchored drawings in discovery order; those counter values start at 1
and are strictly increasing, so the names are pairwise distinct
across the whole mapping; and a drawing whose decode fails still
consumes its counter value, whose name therefore never appears. -/
theorem c9_image_names (wb : Workbook) :
    (mapNames (extract_images wb)).Perm
      ((usedNums 1 (allDrawings wb)).map imageFileName)
  ∧ (∀ n ∈ usedNums 1 (allDrawings wb), 1 ≤ n)
  ∧ (usedNums 1 (allDrawings wb)).Pairwise (· < ·)
  ∧ (mapNames (extract_images wb)).Nodup
  ∧ (∀ (i : Nat) (d : Drawing),
      ((allDrawings wb).filter (fun x => x.hasAnchor))[i]? = some d →
      d.decodeOk = false →
      imageFileName (i + 1) ∉ mapNames (extract_images wb)) := by
  have hperm : (mapNames (extract_images wb)).Perm
      ((usedNums 1 (allDrawings wb)).map imageFileName) := by
    have h := extract_images_names (allDrawings wb) [] 1
    simpa [extract_images, mapNames] using h
  have hbp := usedNums_bound_pairwise (allDrawings wb) 1
  have hnodup_nums : (usedNums 1 (allDrawings wb)).Nodup :=
    List.Pairwise.imp (fun h => Nat.ne_of_lt h) hbp.2
  have hnodup : (mapNames (extract_images wb)).Nodup := by
    refine hperm.nodup_iff.mpr ?_
    exact List.Nodup.map (fun a b h => imageFileName_inj h) hnodup_nums
  refine ⟨hperm, hbp.1, hbp.2, hnodup, ?_⟩
  intro i d hget hdok hmem
  have hmem2 : imageFileName (i + 1) ∈
      (usedNums 1 (allDrawings wb)).map imageFileName :=
    hperm.mem_iff.mp hmem
  obtain ⟨n, hn, he⟩ := List.mem_map.mp hmem2
  have hn' : n = i + 1 := imageFileName_inj he
  subst hn'
  obtain ⟨d', hd', hok⟩ := usedNums_spec (allDrawings wb) 1 (i + 1) hn
  rw [Nat.add_sub_cancel] at hd'
  rw [hget] at hd'
  have hdd : d = d' := (Option.some.injEq _ _).mp hd'
  rw [← hdd] at hok
  rw [hdok] at hok
  exact Bool.false_ne_true hok

/-- C9 witness: the failed second drawing's number is never used. -/
theorem c9_image_names_witness :
    imageFileName 2 ∉ mapNames (extract_images wbImgs) :=
  (c9_image_names wbImgs).2.2.2.2 1 ⟨true, 2, 9, false⟩ (by decide) rfl

